import Mathlib

/-!
Verification of the timeline-conversion engine of blue-archive-tools.

This file shallowly embeds the relevant parts of the repository:

* `src/unnamed/part_001` — the `TimelineProcessor` class (event merge
  scheduler, resource accrual state machine, buff lifecycle manager,
  special command interpreter, label resolver) together with the module
  level helper functions `calculateTotalCostRecovery`,
  `calculateFramesFromReference`, `interpretSign`, `detectCostRecoveryBuff`
  and the label-map initialisation.
* `src/unnamed/part_000` — the static buff catalog (`window.BUFF_DATA`).
* `src/tl-assistant/utilities.js` — the frame/seconds conversions.
* `src/tl-assistant/TL-assistant-utils.js` — the `RadiatorManager` class.

Modelling conventions:

* JavaScript numbers are modelled as `ℤ` (frame counts) and `ℚ`
  (cost points, rates, seconds).  `Math.round` is JavaScript's
  round-half-towards-plus-infinity, modelled by `jsRound`.
* JavaScript truthiness of an optional number / string field is modelled
  explicitly: `0`, `""`, `null`/`undefined` are falsy.
* Regular-expression tests over catalog detection patterns are modelled
  as boolean predicates (`String → Bool`) stored in the catalog entry;
  the two fixed special-command regexes are implemented concretely via
  substring decomposition.
-/

/-- FPS constant of `utilities.js`. -/
def FPS : ℤ := 30

/-- `COST_POINT_UNIT = 30 * 10000`: one whole cost unit in cost points. -/
def COST_POINT_UNIT : ℚ := 30 * 10000

/-- `Math.round`: round half towards plus infinity (JavaScript semantics). -/
def jsRound (q : ℚ) : ℤ := ⌊q + 1 / 2⌋

/-- `secondsToFrames` of `utilities.js`: `Math.round(seconds * FPS)`. -/
def secondsToFrames (seconds : ℚ) : ℤ := jsRound (seconds * 30)

/-- `secondsToFrames` applied to a possibly-missing value: the JavaScript
function returns `0` when its argument is not a number. -/
def secondsToFramesOpt (seconds : Option ℚ) : ℤ :=
  match seconds with
  | none => 0
  | some s => secondsToFrames s

/-- `framesToSeconds` of `utilities.js`: `frames / FPS`. -/
def framesToSeconds (frames : ℤ) : ℚ := (frames : ℚ) / 30

/-- JavaScript truthiness of an optional integer (`0` and `null` are falsy). -/
def truthyInt (o : Option ℤ) : Bool :=
  match o with
  | none => false
  | some v => v != 0

/-- JavaScript truthiness of an optional rational (`0` and `null` are falsy). -/
def truthyQ (o : Option ℚ) : Bool :=
  match o with
  | none => false
  | some v => v != 0

/-- JavaScript truthiness of an optional string (`""` and `null` are falsy). -/
def truthyStr (o : Option String) : Bool :=
  match o with
  | none => false
  | some s => s != ""

/-- JavaScript `a || d` for an optional string `a`. -/
def jsOrStr (o : Option String) (d : String) : String :=
  match o with
  | none => d
  | some s => if s = "" then d else s

/-- JavaScript `a || d` for a plain string `a` (`""` is falsy). -/
def jsOrStr' (s d : String) : String := if s = "" then d else s

/-- JavaScript `a || d` for an optional rational `a` (`0` is falsy). -/
def jsOrQ (o : Option ℚ) (d : ℚ) : ℚ :=
  match o with
  | none => d
  | some v => if v = 0 then d else v

/-- `s` contains `pat` as a substring (used to model the inclusion regexes;
`pat` is a fixed non-empty literal in every use). -/
def containsStr (s pat : String) : Bool := 2 ≤ (s.splitOn pat).length

/-- The part of `s` strictly after the first occurrence of `pat`
(empty when `pat` does not occur). -/
def tailAfterFirst (s pat : String) : String :=
  String.intercalate pat ((s.splitOn pat).drop 1)

/-- `COST_RECOVERY_INCREASE_PATTERN = /コスト回復力.*(?:増|上昇)/`:
some occurrence of コスト回復力 followed later by 増 or 上昇.  Matching after
the first occurrence is equivalent since a later suffix is contained in the
first one. -/
def testIncreasePattern (s : String) : Bool :=
  containsStr s "コスト回復力" &&
    (containsStr (tailAfterFirst s "コスト回復力") "増" ||
     containsStr (tailAfterFirst s "コスト回復力") "上昇")

/-- `COST_RECOVERY_DECREASE_PATTERN = /コスト回復力.*(?:減|減少|低下)/`. -/
def testDecreasePattern (s : String) : Bool :=
  containsStr s "コスト回復力" &&
    (containsStr (tailAfterFirst s "コスト回復力") "減" ||
     containsStr (tailAfterFirst s "コスト回復力") "減少" ||
     containsStr (tailAfterFirst s "コスト回復力") "低下")

/-- An `additional_events` entry: a buff interval, as built by
`createBuffEvent` (`start_frame`, `end_frame`, `event_name`, `buff_target`,
`duration` (ms), `buff_amount`, `active`). -/
structure BuffEvent where
  start_frame : ℤ
  end_frame : ℤ
  event_name : String
  buff_target : String
  duration : ℚ
  buff_amount : ℚ
  active : Bool
deriving DecidableEq

/-- A committed `timeline_json.timeline` entry, as built by
`addEventToTimeline`.  `overflow_cost` is `none` when the accrual step did
not run (target frame not beyond the current frame), matching the absent
JavaScript key. -/
structure TimelineEvent where
  frame : ℤ
  cost_used : ℚ
  event_name : String
  note : List String
  overflow_cost : Option ℚ
  current_cost_display_only : ℚ
  remaining_cost_points : ℚ
  total_cost_recovery : ℚ
  remaining_students : ℤ
deriving DecidableEq

/-- The mutable simulation state `this.state` of `TimelineProcessor`. -/
structure CostState where
  remaining_cost_points : ℚ
  total_cost_recovery : ℚ
  remaining_students : ℤ
  current_frame : ℤ
deriving DecidableEq

/-- A `label_map` entry (`InitializeLabelMap` / `resolveRowTiming`). -/
structure LabelEntry where
  time : Option ℚ
  frame : Option ℤ
deriving DecidableEq

/-- One `input_json.timeline` row.  Optional fields model absent
JavaScript keys.  `value` is the special-command magnitude; a row whose
special command omits it would produce a NaN amount in JavaScript, which
is outside this model. -/
structure Row where
  frame : Option ℤ
  time : Option ℚ
  reference : Option String
  modifier : Option Char
  modified_amount : Option ℚ
  cost_timing : Option ℚ
  explicit_cost_timing : Bool
  cost_used : ℚ
  event_name : String
  label : Option String
  note : List String
  duration : Option ℚ
  value : ℚ
  target : Option String
  is_special_command : Bool
deriving DecidableEq

/-- The recognised `settings` options.  `kanoe_ss` / `cherino_ss` hold the
result of `parseInt(...) || 0` already applied. -/
structure Settings where
  max_cost : Option ℚ
  battle_time : Option ℚ
  ss_enabled : Bool
  special_command_accepted : String
  modifier_always_forward : Option String
  time_display_format : Option String
  seia_koyuu2 : Option String
  kanoe_ss : ℤ
  cherino_ss : ℤ
deriving DecidableEq

/-- One catalog entry of `window.BUFF_DATA.cost_recovery_buffs`.
`detect` / `exclude` model the entry's `detection_patterns` /
`exclusion_patterns` regex lists as a single predicate on the event name
(the JavaScript loop returns the entry iff some inclusion pattern matches
and no exclusion pattern does).  A scalar `duration_frames` is the
singleton list; a `null` duration (entry `general`) is the empty list
(JavaScript arithmetic coerces `null` to `0`, matched by `getD _ 0`). -/
structure BuffConfig where
  buff_name : String
  buff_target : String
  buff_amount : ℚ
  base_buff_amount : ℚ
  additional_buff_amount : ℚ
  duration_frames : List ℤ
  offset_frames : ℤ
  detect : String → Bool
  exclude : String → Bool

/-- The buff catalog: the ordered `Object.entries` of
`cost_recovery_buffs` (key, entry). -/
structure Catalog where
  entries : List (String × BuffConfig)

/-- Property access `catalog.cost_recovery_buffs[k]`. -/
def Catalog.findEntry (c : Catalog) (k : String) : Option BuffConfig :=
  (c.entries.find? (fun e => e.1 = k)).map (fun e => e.2)

section CostRecovery

/-- The class of a buff by `buff_target` in `calculateTotalCostRecovery`:
`"NA"` is a pool-wide (global) buff, a truthy target equal to
`"all"`(case-insensitive)/`"全員"`/`"全体"` applies to every student, and
anything else is an individually-targeted buff. -/
inductive BuffClass where
  | global
  | allStudent
  | individual
deriving DecidableEq

/-- Classification of a `buff_target` string, mirroring the branch order of
`calculateTotalCostRecovery`. -/
def classifyBuffTarget (t : String) : BuffClass :=
  if t = "NA" then .global
  else if t ≠ "" ∧ (t.toLower = "all" ∨ t = "全員" ∨ t = "全体") then .allStudent
  else .individual

/-- A buff counts as active at `current_frame` when its `active` flag is set
and `start_frame ≤ current_frame < end_frame`. -/
def buffActiveAt (current_frame : ℤ) (e : BuffEvent) : Bool :=
  e.active && decide (e.start_frame ≤ current_frame) &&
    decide (current_frame < e.end_frame)

/-- The individually-targeted active buffs (`active_buffs` in the source). -/
def individualActiveBuffs (events : List BuffEvent) (current_frame : ℤ) :
    List BuffEvent :=
  events.filter (fun e =>
    buffActiveAt current_frame e &&
      decide (classifyBuffTarget e.buff_target = .individual))

/-- The all-students active buffs (`all_student_buffs` in the source). -/
def allStudentActiveBuffs (events : List BuffEvent) (current_frame : ℤ) :
    List BuffEvent :=
  events.filter (fun e =>
    buffActiveAt current_frame e &&
      decide (classifyBuffTarget e.buff_target = .allStudent))

/-- The pool-wide active buffs (`global_buffs` in the source,
`buff_target === "NA"`). -/
def globalActiveBuffs (events : List BuffEvent) (current_frame : ℤ) :
    List BuffEvent :=
  events.filter (fun e =>
    buffActiveAt current_frame e &&
      decide (classifyBuffTarget e.buff_target = .global))

/-- `base_recovery = 700` (per-student base cost recovery). -/
def baseRecovery : ℚ := 700

/-- `cost_recovery_ss_multiplier = 0.2029`. -/
def costRecoverySSMultiplier : ℚ := 2029 / 10000

/-- Apply the optional SS scaling: `Math.round(x * (1 + 0.2029))` when
enabled, `x` unchanged otherwise. -/
def ssScale (ss_enabled : Bool) (x : ℚ) : ℚ :=
  if ss_enabled then (jsRound (x * (1 + costRecoverySSMultiplier)) : ℚ) else x

/-- The error message thrown when too many individual buffs are active. -/
def tooManyBuffsMsg (n : ℕ) : String :=
  s!"バフの個数が{n}個で上限（6個）を超えています"

/-- `calculateTotalCostRecovery(additional_events, current_frame, ss_enabled,
active_students)`: classify the active buffs, fail when 7 or more
individually-targeted buffs are active, otherwise sum the per-student
recovery (buffed students, then unbuffed students, then pool-wide buffs). -/
def calculateTotalCostRecovery (additional_events : List BuffEvent)
    (current_frame : ℤ) (ss_enabled : Bool) (active_students : ℤ) :
    Except String ℚ :=
  let active_buffs := individualActiveBuffs additional_events current_frame
  let all_student_buffs := allStudentActiveBuffs additional_events current_frame
  let global_buffs := globalActiveBuffs additional_events current_frame
  if 7 ≤ active_buffs.length then
    .error (tooManyBuffsMsg active_buffs.length)
  else
    let all_student_buff_total :=
      (all_student_buffs.map (fun b => b.buff_amount)).sum
    let buffed_total :=
      (active_buffs.map (fun b =>
        ssScale ss_enabled (baseRecovery + b.buff_amount + all_student_buff_total))).sum
    let unbuffed_students : ℤ := active_students - active_buffs.length
    let unbuffed_total :=
      if 0 < unbuffed_students then
        (unbuffed_students : ℚ) * ssScale ss_enabled (baseRecovery + all_student_buff_total)
      else 0
    let global_buff_total :=
      (global_buffs.map (fun b => ssScale ss_enabled b.buff_amount)).sum
    .ok (buffed_total + unbuffed_total + global_buff_total)

end CostRecovery

/-- The sign-policy resolution of `interpretSign` for a valid modifier:
`modifier_always_forward` defaults to `'no'`, `time_display_format`
defaults to `'backward'`; a countdown display inverts the sign. -/
def interpretSignValid (modifier_sign : ℤ) (settings : Settings) : ℤ :=
  let modifier_always_forward := jsOrStr settings.modifier_always_forward "no"
  let time_display_format := jsOrStr settings.time_display_format "backward"
  if modifier_always_forward = "yes" then modifier_sign
  else if time_display_format = "backward" then -1 * modifier_sign
  else modifier_sign

/-- `interpretSign(modifier_char, settings)`: `+1`/`-1` resolved through the
two sign-policy toggles, `0` for an invalid modifier. -/
def interpretSign (modifier_char : Option Char) (settings : Settings) : ℤ :=
  match modifier_char with
  | some '+' => interpretSignValid 1 settings
  | some '-' => interpretSignValid (-1) settings
  | _ => 0

/-- `InitializeLabelMap(input_json)` (source name; the function builds the
initial label → time/frame map from rows carrying a non-blank label; a row
with `time == null` registers a `null` time and frame). -/
def buildLabelMap (input : List Row) : String → Option LabelEntry :=
  input.foldl
    (fun acc row =>
      match row.label with
      | none => acc
      | some l =>
          if l ≠ "" ∧ l.trim ≠ "" then
            fun s =>
              if s = l.trim then
                some (match row.time with
                      | none => { time := none, frame := none }
                      | some t => { time := some t, frame := some (secondsToFrames t) })
              else acc s
          else acc)
    (fun _ => none)

/-- The full processor state: `this` of a `TimelineProcessor` instance
(`settings`, `buff_data`, the derived constants `max_cost_points` and
`ss_enabled`, `this.state`, `this.label_map`,
`this.timeline_json.timeline` and `this.timeline_json.additional_events`). -/
structure Proc where
  settings : Settings
  buff_data : Option Catalog
  max_cost_points : ℚ
  ss_enabled : Bool
  state : CostState
  label_map : String → Option LabelEntry
  timeline : List TimelineEvent
  additional_events : List BuffEvent

/-- The "cost already reached" annotation of
`calculateFramesFromCostTiming`. -/
def alreadyReachedMsg (target_cost : ℚ) : String :=
  s!"{target_cost}コスは既に溜まっています"

/-- The error thrown by `calculateFramesFromCostTiming` on a non-positive
accrual rate. -/
def zeroRecoveryMsg : String :=
  "コスト回復量が0以下です。戦闘開始前の可能性があります。"

/-- `TimelineProcessor.calculateFramesFromCostTiming(cost_timing,
current_row)`: already-satisfied targets resolve to the current frame
(annotating explicit anchors), otherwise the inverse solve
`current_frame + ceil(cost_points_needed / total_cost_recovery)` runs,
failing when the rate is not positive. -/
def calculateFramesFromCostTiming (p : Proc) (cost_timing : ℚ) (row : Row) :
    Except String (ℤ × Row) :=
  let current_cost := p.state.remaining_cost_points / COST_POINT_UNIT
  let target_cost := cost_timing
  if target_cost ≤ current_cost then
    .ok (p.state.current_frame,
      if row.explicit_cost_timing then
        { row with note := row.note ++ [alreadyReachedMsg target_cost] }
      else row)
  else
    let cost_needed := target_cost - current_cost
    let cost_points_needed := cost_needed * COST_POINT_UNIT
    if p.state.total_cost_recovery ≤ 0 then
      .error zeroRecoveryMsg
    else
      let frames_needed := ⌈cost_points_needed / p.state.total_cost_recovery⌉
      .ok (p.state.current_frame + frames_needed, row)

/-- The annotation recorded when a referenced label does not exist. -/
def missingLabelMsg (ref_label : String) : String :=
  s!"{ref_label}というラベルは存在しません"

/-- The annotation recorded when a referenced label has no time yet and a
signed offset was requested. -/
def forwardLabelMsg (ref_label : String) : String :=
  s!"未来の時間を指定する場合、{ref_label}で時間指定が必要です"

/-- `calculateFramesFromReference(current_row, label_map, settings)`.
The function never throws: a missing label falls back to frame `0` with an
annotation, and a known label without time information resolves the base
frame to `0` (the JavaScript no-modifier branch returns `null` there;
every later use of that value — numeric comparison, arithmetic,
`framesToSeconds`, truthiness — coerces `null` to `0`, so the embedding
returns `0`). -/
def calculateFramesFromReference (row : Row)
    (label_map : String → Option LabelEntry) (settings : Settings) :
    ℤ × Row :=
  let ref_label := jsOrStr row.reference ""
  match label_map ref_label with
  | none =>
      (0, { row with note := row.note ++ [missingLabelMsg ref_label] })
  | some ref_event =>
      if row.modifier.isSome = false ∧ truthyQ row.modified_amount = false then
        (ref_event.frame.getD 0, row)
      else
        let (ref_frame, row1) :=
          if truthyInt ref_event.frame then (ref_event.frame.getD 0, row)
          else if truthyQ ref_event.time then
            (secondsToFrames (ref_event.time.getD 0), row)
          else
            (0,
              if row.modifier.isSome ∧ truthyQ row.modified_amount then
                { row with note := row.note ++ [forwardLabelMsg ref_label] }
              else row)
        let mod_amount := jsOrQ row.modified_amount 0
        let mod_frames := secondsToFrames mod_amount
        let modifier_sign := interpretSign row.modifier settings
        (ref_frame + modifier_sign * mod_frames, row1)

/-- The error thrown by `estimateFrameFromRow` when a row carries no anchor. -/
def noAnchorMsg : String := "時間、参照、またはコスト指定のいずれかが必要です"

/-- `TimelineProcessor.estimateFrameFromRow`: priority order frame → time →
reference → cost timing, failing when no anchor is present.  JavaScript
truthiness makes an explicit `0` frame or time behave like an absent one. -/
def estimateFrameFromRow (p : Proc) (row : Row) : Except String (ℤ × Row) :=
  if truthyInt row.frame then .ok (row.frame.getD 0, row)
  else if truthyQ row.time then .ok (secondsToFrames (row.time.getD 0), row)
  else if truthyStr row.reference then
    .ok (calculateFramesFromReference row p.label_map p.settings)
  else if truthyQ row.cost_timing then
    calculateFramesFromCostTiming p (jsOrQ row.cost_timing 0) row
  else .error noAnchorMsg

/-- `detectCostRecoveryBuff(event_name, buff_data)`: first catalog entry in
order whose inclusion patterns match the event name and whose exclusion
patterns do not.  `none` when no buff data was supplied or nothing
matches. -/
def detectCostRecoveryBuff (event_name : String) (buff_data : Option Catalog) :
    Option BuffConfig :=
  match buff_data with
  | none => none
  | some cat =>
      cat.entries.findSome? (fun e =>
        if e.2.detect event_name && !(e.2.exclude event_name) then some e.2
        else none)

/-- `TimelineProcessor.createBuffEvent(buff_info, start_frame, settings)`:
`start = start_frame + offset`, duration taken from the catalog (for
`セイアEX` the two-variant list is selected by `settings.seia_koyuu2`,
defaulting to `'yes'`, which picks index 1), `end = start + duration`,
`active = false` at creation. -/
def createBuffEvent (buff_info : BuffConfig) (start_frame : ℤ)
    (settings : Settings) : BuffEvent :=
  let actual_start_frame := start_frame + buff_info.offset_frames
  let duration_frames :=
    if buff_info.buff_name = "セイアEX" then
      if jsOrStr settings.seia_koyuu2 "yes" = "yes" then
        buff_info.duration_frames.getD 1 0
      else buff_info.duration_frames.getD 0 0
    else buff_info.duration_frames.getD 0 0
  let end_frame := actual_start_frame + duration_frames
  { start_frame := actual_start_frame
    end_frame := end_frame
    event_name := buff_info.buff_name
    buff_target := buff_info.buff_target
    duration := ((duration_frames : ℚ) / 30) * 1000
    buff_amount := buff_info.buff_amount
    active := false }

/-- The truncation applied by `checkAndUpdateDuplicateBuffs` to a
conflicting older buff: `end_frame` becomes the new start frame and the
millisecond duration is recomputed. -/
def truncateBuff (b : BuffEvent) (new_start_frame : ℤ) : BuffEvent :=
  { b with
    end_frame := new_start_frame
    duration := (((new_start_frame - b.start_frame : ℤ) : ℚ) / 30) * 1000 }

/-- The condition under which `checkAndUpdateDuplicateBuffs` truncates an
existing buff: same `buff_target`, `active !== false` (i.e. the start
transition has committed — `active` is always a boolean here), and
`end_frame` beyond the new start frame. -/
def duplicateBuffHit (buff_target : String) (new_start_frame : ℤ)
    (b : BuffEvent) : Bool :=
  b.buff_target = buff_target && b.active &&
    decide (new_start_frame < b.end_frame)

/-- `TimelineProcessor.checkAndUpdateDuplicateBuffs(buff_target,
new_start_frame)`: truncate every conflicting buff in
`additional_events`, returning the updated list and whether a duplicate
was found.  A falsy `buff_target` is a no-op. -/
def checkAndUpdateDuplicateBuffs (additional_events : List BuffEvent)
    (buff_target : String) (new_start_frame : ℤ) :
    List BuffEvent × Bool :=
  if buff_target = "" then (additional_events, false)
  else
    (additional_events.map (fun b =>
        if duplicateBuffHit buff_target new_start_frame b then
          truncateBuff b new_start_frame
        else b),
     additional_events.any (duplicateBuffHit buff_target new_start_frame))

/-- `TimelineProcessor.detectAndProcessBuff(event_name, start_frame)`:
detect a catalog buff, run the duplicate-scope truncation when the buff
carries a truthy target, and append the freshly created (inactive)
interval. -/
def detectAndProcessBuff (p : Proc) (event_name : String) (start_frame : ℤ) :
    Proc :=
  match detectCostRecoveryBuff event_name p.buff_data with
  | none => p
  | some buff_info =>
      let buff_event := createBuffEvent buff_info start_frame p.settings
      let additional1 :=
        if buff_info.buff_target ≠ "" then
          (checkAndUpdateDuplicateBuffs p.additional_events
            buff_info.buff_target buff_event.start_frame).1
        else p.additional_events
      { p with additional_events := additional1 ++ [buff_event] }

/-- `TimelineProcessor.addKanoeSS()`: when `settings.kanoe_ss ≥ 1` and the
catalog has a `kanoe` entry, push a buff at frame 60 with magnitude
`base + (level − 1) × additional`. -/
def addKanoeSS (p : Proc) : Proc :=
  let kanoeSSLevel := p.settings.kanoe_ss
  match p.buff_data with
  | none => p
  | some cat =>
      if 1 ≤ kanoeSSLevel then
        match cat.findEntry "kanoe" with
        | none => p
        | some kanoeBuff =>
            let calculatedBuffAmount :=
              kanoeBuff.base_buff_amount +
                ((kanoeSSLevel - 1 : ℤ) : ℚ) * kanoeBuff.additional_buff_amount
            let kanoeBuffInfo := { kanoeBuff with buff_amount := calculatedBuffAmount }
            let ev := createBuffEvent kanoeBuffInfo 60 p.settings
            { p with additional_events := p.additional_events ++ [ev] }
      else p

/-- `TimelineProcessor.addCherinoSS()`: as `addKanoeSS` with the `cherino`
entry. -/
def addCherinoSS (p : Proc) : Proc :=
  let cherinoSSLevel := p.settings.cherino_ss
  match p.buff_data with
  | none => p
  | some cat =>
      if 1 ≤ cherinoSSLevel then
        match cat.findEntry "cherino" with
        | none => p
        | some cherinoBuff =>
            let calculatedBuffAmount :=
              cherinoBuff.base_buff_amount +
                ((cherinoSSLevel - 1 : ℤ) : ℚ) * cherinoBuff.additional_buff_amount
            let cherinoBuffInfo := { cherinoBuff with buff_amount := calculatedBuffAmount }
            let ev := createBuffEvent cherinoBuffInfo 60 p.settings
            { p with additional_events := p.additional_events ++ [ev] }
      else p

/-- The buff-name rewriting of `processSpecialCommand`: insert the
magnitude before 増加, replace 増加 by 減少 for a decrease, and append the
target name unless it is `"NA"`.  (The source replaces the first
occurrence; the skeleton name contains a single 増加, so replacing all
occurrences coincides.) -/
def specialCommandBuffName (buff_name : String) (buffAmount : ℚ)
    (isDecreasePattern : Bool) (buff_target : String) : String :=
  let n1 := buff_name.replace "増加" (toString |buffAmount| ++ "増加")
  let n2 := if isDecreasePattern then n1.replace "増加" "減少" else n1
  if buff_target ≠ "" ∧ buff_target ≠ "NA" then
    n2 ++ "(" ++ buff_target ++ ")"
  else n2

/-- `TimelineProcessor.processSpecialCommand(original_event)`: mark the row,
and when the capability flag is `'yes'`, the name matches an
increase/decrease pattern and a positive duration is present, synthesize a
transient `general`-based buff interval.  A missing or non-positive
duration is a silent no-op.  (The source reads the global
`window.BUFF_DATA`; deployments load the same catalog as `this.buff_data`,
which the embedding uses.  A deployment without a `general` entry would
crash in JavaScript; the embedding produces no interval in that
unreachable case.) -/
def processSpecialCommand (p : Proc) (row : Row) : Row × Proc :=
  let row0 := { row with is_special_command := false }
  if p.settings.special_command_accepted ≠ "yes" then (row0, p)
  else if row.event_name = "" then (row0, p)
  else
    let isIncreasePattern := testIncreasePattern row.event_name
    let isDecreasePattern := testDecreasePattern row.event_name
    if isIncreasePattern || isDecreasePattern then
      let row1 := { row0 with is_special_command := true }
      match row.duration with
      | none => (row1, p)
      | some duration =>
          if 0 < duration then
            match p.buff_data with
            | none => (row1, p)
            | some cat =>
                match cat.findEntry "general" with
                | none => (row1, p)
                | some general =>
                    let buffAmount :=
                      if isDecreasePattern then -row.value else row.value
                    let sk0 :=
                      { general with
                        buff_amount := buffAmount
                        duration_frames := [secondsToFrames duration] }
                    let sk1 :=
                      match row.target with
                      | some t => if t ≠ "" then { sk0 with buff_target := t } else sk0
                      | none => sk0
                    let sk2 :=
                      if sk1.buff_name ≠ "" then
                        { sk1 with
                          buff_name :=
                            specialCommandBuffName sk1.buff_name buffAmount
                              isDecreasePattern sk1.buff_target }
                      else sk1
                    let start_frame := secondsToFramesOpt row.time
                    let buff_event := createBuffEvent sk2 start_frame p.settings
                    (row1, { p with additional_events := p.additional_events ++ [buff_event] })
          else (row1, p)
    else (row0, p)

/-- The two buff transitions (`event_type` `'start'` / `'end'`; `'end'` is a
reserved word in Lean, hence `stop`). -/
inductive TransKind where
  | start
  | stop
deriving DecidableEq

/-- A commit handed to `addEventToTimeline`: either a row-style event
(`event_source === 'input_row'`; used both for `input_json` rows and the
two `DEFAULT_EVENTS`, which carry a `remaining_students` update) or a
pending buff transition (`event_source === 'additional_event'`; `event` is
the copy made by `findMostRecentAdditionalEvent`, `idx` locates the
original entry whose `active` flag is flipped). -/
inductive Commit where
  | row (frame : ℤ) (cost_used : ℚ) (event_name : String) (note : List String)
      (remaining_students : Option ℤ)
  | trans (event : BuffEvent) (kind : TransKind) (idx : ℕ)
deriving DecidableEq

/-- The target frame of a commit (`target_frame` in
`addEventToTimeline`). -/
def commitTarget : Commit → ℤ
  | .row f _ _ _ _ => f
  | .trans e kind _ =>
      match kind with
      | .start => e.start_frame
      | .stop => e.end_frame

/-- The cost consumed by a commit (`cost_used`; buff transitions consume
none). -/
def commitCostUsed : Commit → ℚ
  | .row _ cu _ _ _ => cu
  | .trans _ _ _ => 0

/-- Whether the commit came from `event_source === 'input_row'`. -/
def commitIsRow : Commit → Bool
  | .row _ _ _ _ _ => true
  | .trans _ _ _ => false

/-- The `remaining_students` update carried by a commit (only the two
`DEFAULT_EVENTS` carry one). -/
def commitStudents : Commit → Option ℤ
  | .row _ _ _ _ s => s
  | .trans _ _ _ => none

/-- The suffix appended to a transition's event name (`開始`/`終了`). -/
def transSuffix : TransKind → String
  | .start => "開始"
  | .stop => "終了"

/-- The displayed name of a commit; a falsy transition name falls back to
`'バフイベント'`. -/
def commitName : Commit → String
  | .row _ _ n _ _ => jsOrStr' n ""
  | .trans e kind _ => jsOrStr' e.event_name "バフイベント" ++ transSuffix kind

/-- The note list of a commit (transitions start with an empty list). -/
def commitNote : Commit → List String
  | .row _ _ _ note _ => note
  | .trans _ _ _ => []

/-- The `formatted_event` skeleton built at the top of
`addEventToTimeline`; the cost fields are overwritten at step 6. -/
def baseFormattedEvent (c : Commit) : TimelineEvent :=
  { frame := commitTarget c
    cost_used := commitCostUsed c
    event_name := commitName c
    note := commitNote c
    overflow_cost := none
    current_cost_display_only := 0
    remaining_cost_points := 0
    total_cost_recovery := 0
    remaining_students := 0 }

/-- The `active`-flag flip performed on the original `additional_events`
entry when a transition commits (`event.original_event.active = ...`). -/
def applyTransitionFlag (additional_events : List BuffEvent) :
    Commit → List BuffEvent
  | .row _ _ _ _ _ => additional_events
  | .trans _ kind idx =>
      additional_events.enum.map (fun ie =>
        if ie.1 = idx then { ie.2 with active := kind = TransKind.start }
        else ie.2)

/-- Steps 1–2 of `addEventToTimeline`: accrue
`(target − current) × total_cost_recovery` when the target frame lies
beyond the current frame, clamp at `max_cost_points` recording the excess
as overflow (in cost units).  Returns the accumulator and the
`overflow_cost` field (`none` when the accrual step did not run). -/
def accrueAndClamp (p : Proc) (target_frame : ℤ) : ℚ × Option ℚ :=
  if p.state.current_frame < target_frame then
    let recovery_points :=
      ((target_frame - p.state.current_frame : ℤ) : ℚ) * p.state.total_cost_recovery
    let pts := p.state.remaining_cost_points + recovery_points
    if p.max_cost_points < pts then
      (p.max_cost_points, some ((pts - p.max_cost_points) / COST_POINT_UNIT))
    else (pts, some 0)
  else (p.state.remaining_cost_points, none)

/-- The unclamped accumulator value of step 1 of `addEventToTimeline`:
previous accumulator plus `(target − current) × total_cost_recovery`. -/
def unclampedPoints (p : Proc) (target_frame : ℤ) : ℚ :=
  p.state.remaining_cost_points +
    ((target_frame - p.state.current_frame : ℤ) : ℚ) * p.state.total_cost_recovery

/-- Step 4 of `addEventToTimeline` applied after steps 1–3: the
accumulator after the accrual/clamp of `accrueAndClamp` and, for a
row-style commit with a non-zero cost, the payment
`cost_used × COST_POINT_UNIT`. -/
def committedPoints (p : Proc) (c : Commit) : ℚ :=
  let points1 := (accrueAndClamp p (commitTarget c)).1
  if commitIsRow c ∧ commitCostUsed c ≠ 0 then
    points1 - commitCostUsed c * COST_POINT_UNIT
  else points1

/-- The finalized event appended at step 6 of `addEventToTimeline`. -/
def committedEvent (p : Proc) (c : Commit) (recov : ℚ) : TimelineEvent :=
  { baseFormattedEvent c with
    overflow_cost := (accrueAndClamp p (commitTarget c)).2
    current_cost_display_only := committedPoints p c / COST_POINT_UNIT
    remaining_cost_points := committedPoints p c
    total_cost_recovery := recov
    remaining_students := (commitStudents c).getD p.state.remaining_students }

/-- Steps 1–4 and 6 of `addEventToTimeline` given the recomputed accrual
rate `recov` of step 5: accrue and clamp, advance the frame, update the
student count, pay the cost strictly afterwards, and append the finalized
event. -/
def addEventCore (p : Proc) (c : Commit) (recov : ℚ) : Proc :=
  { p with
    state :=
      { remaining_cost_points := committedPoints p c
        total_cost_recovery := recov
        remaining_students := (commitStudents c).getD p.state.remaining_students
        current_frame := commitTarget c }
    additional_events := applyTransitionFlag p.additional_events c
    timeline := p.timeline ++ [committedEvent p c recov] }

/-- `TimelineProcessor.addEventToTimeline(event, event_source)`: steps 1–4
and 6 are `addEventCore`; step 5 recomputes the accrual rate from the
updated buff set, the target frame and the updated student count, and its
error (too many individual buffs) aborts the commit. -/
def addEventToTimeline (p : Proc) (c : Commit) : Except String Proc :=
  match calculateTotalCostRecovery (applyTransitionFlag p.additional_events c)
      (commitTarget c) p.ss_enabled
      ((commitStudents c).getD p.state.remaining_students) with
  | .error e => .error e
  | .ok recov => .ok (addEventCore p c recov)

/-- The result of `findMostRecentAdditionalEvent`: the candidate frame, the
copied event, the transition kind (`event_type`) and the index of the
original entry. -/
structure FoundTrans where
  frame : ℤ
  event : BuffEvent
  kind : TransKind
  idx : ℕ
deriving DecidableEq

/-- The candidate transition contributed by one `additional_events` entry:
entries already ended (`end_frame < current_frame`) are skipped entirely;
an active entry proposes its end, an inactive one proposes its start only
when `start_frame ≥ current_frame`. -/
def transCandidate (current_frame : ℤ) (idx : ℕ) (e : BuffEvent) :
    Option FoundTrans :=
  if e.end_frame < current_frame then none
  else if e.active then some ⟨e.end_frame, e, .stop, idx⟩
  else if current_frame ≤ e.start_frame then some ⟨e.start_frame, e, .start, idx⟩
  else none

/-- The scan loop of `findMostRecentAdditionalEvent`: keep the candidate
with the strictly smallest frame (first one wins on ties). -/
def findFrom (events : List BuffEvent) (current_frame : ℤ) (i : ℕ)
    (acc : Option FoundTrans) : Option FoundTrans :=
  match events with
  | [] => acc
  | e :: rest =>
      let acc1 :=
        match transCandidate current_frame i e, acc with
        | none, a => a
        | some c, none => some c
        | some c, some best => if c.frame < best.frame then some c else some best
      findFrom rest current_frame (i + 1) acc1

/-- `TimelineProcessor.findMostRecentAdditionalEvent(additional_events,
current_frame)`. -/
def findMostRecentAdditionalEvent (events : List BuffEvent)
    (current_frame : ℤ) : Option FoundTrans :=
  findFrom events current_frame 0 none

/-- The message of the iteration-limit abort of `resolveRowTiming`
(`index` is 0-based; the message shows the 1-based row position). -/
def loopMsg (index : ℕ) : String := s!"無限ループが発生しました (行{index + 1})"

/-- The wrapper applied by `resolveRowTiming`'s catch block to any row
processing error. -/
def rowErrorMsg (index : ℕ) (e : String) : String :=
  s!"行{index + 1}の処理エラー: {e}"

/-- The `while` loop of `resolveRowTiming`: re-estimate the row's frame,
and as long as a pending buff transition is due at or before the estimate,
commit it first.  The fuel argument models the `loop_count > 100` guard:
it starts at 100 and the exhausted case is the `無限ループ` abort. -/
def resolveLoopAux (p : Proc) (row : Row) (index : ℕ) :
    ℕ → Except String (Proc × Row × ℤ)
  | 0 => .error (loopMsg index)
  | fuel + 1 =>
      match estimateFrameFromRow p row with
      | .error e => .error e
      | .ok (frame_estimated, row1) =>
          match findMostRecentAdditionalEvent p.additional_events
              p.state.current_frame with
          | some ft =>
              if ft.frame ≤ frame_estimated then
                match addEventToTimeline p (.trans ft.event ft.kind ft.idx) with
                | .error e => .error e
                | .ok p1 => resolveLoopAux p1 row1 index fuel
              else .ok (p, row1, frame_estimated)
          | none => .ok (p, row1, frame_estimated)

/-- The "reordered" annotation attached when a row's final frame lies
before the current frame. -/
def reorderedMsg : String := "指定タイムが直前の行動より早くなっています"

/-- The label-map update performed after a row's frame is fixed. -/
def updateLabel (p : Proc) (row : Row) (frame_estimated : ℤ) : Proc :=
  match row.label with
  | none => p
  | some l =>
      if l ≠ "" ∧ l.trim ≠ "" then
        { p with
          label_map := fun s =>
            if s = l.trim then
              some { time := some (framesToSeconds frame_estimated)
                     frame := some frame_estimated }
            else p.label_map s }
      else p

/-- The part of `resolveRowTiming` after its `while` loop: clamp a frame
earlier than the current frame (attaching the "reordered" annotation
instead of failing), write the resolved frame and time back into the row,
update the label map, run buff detection, and commit the row event. -/
def commitRow (p : Proc) (row : Row) (frame_estimated : ℤ) :
    Except String (Proc × Row) :=
  let clamped := frame_estimated < p.state.current_frame
  let fe1 := if clamped then p.state.current_frame else frame_estimated
  let note1 := if clamped then row.note ++ [reorderedMsg] else row.note
  let row1 :=
    { row with frame := some fe1, time := some (framesToSeconds fe1), note := note1 }
  let p1 := updateLabel p row1 fe1
  let p2 := detectAndProcessBuff p1 row1.event_name fe1
  match addEventToTimeline p2 (.row fe1 row.cost_used row.event_name note1 none) with
  | .error e => .error e
  | .ok p3 => .ok (p3, row1)

/-- `TimelineProcessor.resolveRowTiming(row, index)`: the merge loop (at
most 100 iterations) followed by the row commit, with every failure
wrapped in the per-row error message. -/
def resolveRowTiming (p : Proc) (row : Row) (index : ℕ) :
    Except String (Proc × Row) :=
  match (match resolveLoopAux p row index 100 with
         | .error e => (.error e : Except String (Proc × Row))
         | .ok (p1, row1, frame_estimated) => commitRow p1 row1 frame_estimated) with
  | .error e => .error (rowErrorMsg index e)
  | .ok r => .ok r

/-- The two `DEFAULT_EVENTS` (`TIME_START` at frame 0 with 0 students,
`BATTLE_START` at frame 60 with 6 students). -/
def timeStartCommit : Commit := .row 0 0 "タイム計測開始" [] (some 0)

/-- `DEFAULT_EVENTS.BATTLE_START`. -/
def battleStartCommit : Commit := .row 60 0 "戦闘開始" [] (some 6)

/-- `COST_SETTINGS.DEFAULT_MAX_COST`. -/
def DEFAULT_MAX_COST : ℚ := 10

/-- Step 1 of the `TimelineProcessor` constructor: the settings-derived
constants and the initial state (frame 0, empty accumulator, zero rate,
no students) with the label map built from the input rows. -/
def initProc0 (input : List Row) (settings : Settings)
    (buff_data : Option Catalog) : Proc :=
  { settings := settings
    buff_data := buff_data
    max_cost_points := jsOrQ settings.max_cost DEFAULT_MAX_COST * COST_POINT_UNIT
    ss_enabled := settings.ss_enabled
    state :=
      { remaining_cost_points := 0
        total_cost_recovery := 0
        remaining_students := 0
        current_frame := 0 }
    label_map := buildLabelMap input
    timeline := []
    additional_events := [] }

/-- The `TimelineProcessor` constructor, after `initProc0`: commit the two
default events and apply the one-time Kanoe/Cherino SS grants. -/
def initTimelineProcessor (input : List Row) (settings : Settings)
    (buff_data : Option Catalog) : Except String Proc :=
  let p0 := initProc0 input settings buff_data
  match addEventToTimeline p0 timeStartCommit with
  | .error e => .error e
  | .ok p1 =>
      match addEventToTimeline p1 battleStartCommit with
      | .error e => .error e
      | .ok p2 => .ok (addCherinoSS (addKanoeSS p2))

/-- The resolved output (`timeline_json` restricted to the fields the
engine computes; the metadata echo of the input settings is omitted). -/
structure TimelineJSON where
  timeline : List TimelineEvent
  additional_events : List BuffEvent
  final_cost : ℚ
  final_frame : ℤ
deriving DecidableEq

/-- Step 2 of `createTimelineJSON`: process each row in order, skipping
rows recognised as special commands. -/
def createTimelineLoop : Proc → List Row → ℕ → Except String Proc
  | p, [], _ => .ok p
  | p, row :: rest, i =>
      let ps := processSpecialCommand p row
      if ps.1.is_special_command then createTimelineLoop ps.2 rest (i + 1)
      else
        match resolveRowTiming ps.2 ps.1 i with
        | .error e => .error e
        | .ok (p2, _) => createTimelineLoop p2 rest (i + 1)

/-- `TimelineProcessor.createTimelineJSON()`: run the main loop over the
rows stored at construction and assemble the final output, wrapping any
error. -/
def createTimelineJSON (p0 : Proc) (input : List Row) :
    Except String TimelineJSON :=
  match createTimelineLoop p0 input 0 with
  | .error e => .error s!"TimelineProcessor.createTimelineJSON実行エラー: {e}"
  | .ok p =>
      .ok { timeline := p.timeline
            additional_events := p.additional_events
            final_cost := p.state.remaining_cost_points / COST_POINT_UNIT
            final_frame := p.state.current_frame }

/-- One full conversion: construct the processor and run
`createTimelineJSON` on the same input rows. -/
def runTimelineProcessor (input : List Row) (settings : Settings)
    (buff_data : Option Catalog) : Except String TimelineJSON :=
  match initTimelineProcessor input settings buff_data with
  | .error e => .error e
  | .ok p0 => createTimelineJSON p0 input

/-- `window.BUFF_DATA` of `buffs.js` (src/unnamed/part_000).  The regex
detection patterns are modelled as ordered substring tests:
`/.*水.*(ホシノ|おじ).*/` becomes "contains 水 followed later by ホシノ or
おじ", `/.*セイア.*/` and `/.*水.*/` become plain containment.  The `null`
`buff_amount` of `kanoe`/`cherino`/`general` (always overwritten before
use) is modelled as `0`, and the `null` duration of `general` as the empty
list. -/
def BUFF_DATA : Catalog :=
  { entries :=
      [ ("mizugi_hoshino",
          { buff_name := "水着ホシノEX"
            buff_target := "水着ホシノ"
            buff_amount := 684
            base_buff_amount := 0
            additional_buff_amount := 0
            duration_frames := [1500]
            offset_frames := 21
            detect := fun n =>
              containsStr n "水" &&
                (containsStr (tailAfterFirst n "水") "ホシノ" ||
                 containsStr (tailAfterFirst n "水") "おじ")
            exclude := fun _ => false })
      , ("seia",
          { buff_name := "セイアEX"
            buff_target := "セイア"
            buff_amount := 718
            base_buff_amount := 0
            additional_buff_amount := 0
            duration_frames := [450, 535]
            offset_frames := 98
            detect := fun n => containsStr n "セイア"
            exclude := fun n => containsStr n "水" })
      , ("kanoe",
          { buff_name := "カノエSS"
            buff_target := "カノエ"
            buff_amount := 0
            base_buff_amount := 342
            additional_buff_amount := 85
            duration_frames := [1000000]
            offset_frames := 0
            detect := fun _ => false
            exclude := fun _ => false })
      , ("cherino",
          { buff_name := "チェリノSS"
            buff_target := "チェリノ"
            buff_amount := 0
            base_buff_amount := 511
            additional_buff_amount := 146
            duration_frames := [1000000]
            offset_frames := 0
            detect := fun _ => false
            exclude := fun _ => false })
      , ("general",
          { buff_name := "コスト回復力増加"
            buff_target := "NA"
            buff_amount := 0
            base_buff_amount := 0
            additional_buff_amount := 0
            duration_frames := []
            offset_frames := 0
            detect := fun _ => false
            exclude := fun _ => false })
      ] }

/-- A radiator marker event as collected by
`RadiatorManager.extractAndProcessRadiatorEvents`: its frame and the
results of the `isRadiatorStart`/`isRadiatorEnd` name-pattern tests. -/
structure RadiatorEvent where
  frame : ℤ
  is_start : Bool
  is_end : Bool
deriving DecidableEq

/-- A computed radiator interval. -/
structure RadiatorInterval where
  start_frame : ℤ
  end_frame : ℤ
  auto_extended : Bool
deriving DecidableEq

/-- The scan loop of `RadiatorManager.calculateRadiatorIntervals`:
`current_start_frame === null ∧ is_start` opens, `≠ null ∧ is_end` closes,
anything else is skipped; a still-open interval is auto-extended to the
supplied battle end frame when one was supplied. -/
def radiatorScan (events : List RadiatorEvent)
    (current_start_frame : Option ℤ) (battle_time_frames : Option ℤ) :
    List RadiatorInterval :=
  match events with
  | [] =>
      match current_start_frame, battle_time_frames with
      | some s, some b => [{ start_frame := s, end_frame := b, auto_extended := true }]
      | _, _ => []
  | e :: rest =>
      match current_start_frame with
      | none =>
          if e.is_start then radiatorScan rest (some e.frame) battle_time_frames
          else radiatorScan rest none battle_time_frames
      | some s =>
          if e.is_end then
            { start_frame := s, end_frame := e.frame, auto_extended := false } ::
              radiatorScan rest none battle_time_frames
          else radiatorScan rest (some s) battle_time_frames

/-- `RadiatorManager.calculateRadiatorIntervals(battle_time_frames)` on the
frame-sorted marker list. -/
def calculateRadiatorIntervals (events : List RadiatorEvent)
    (battle_time_frames : Option ℤ) : List RadiatorInterval :=
  radiatorScan events none battle_time_frames

/-- `RadiatorManager.isRadiatorActiveAt(frame)`: half-open membership
`start_frame ≤ frame < end_frame` in some computed interval. -/
def isRadiatorActiveAt (intervals : List RadiatorInterval) (frame : ℤ) :
    Bool :=
  intervals.any (fun iv =>
    decide (iv.start_frame ≤ frame) && decide (frame < iv.end_frame))

/-- Modelled from the spec wording of the radiator scan, for comparison
with the source embedding: "a start-marker opens an interval if none is
open; an end-marker closes the most recently opened interval; out-of-order
end-markers (no open interval) are ignored; an interval still open at the
end of the scan is auto-extended to a supplied simulation end frame". -/
def radiatorIntervalsSpec (events : List RadiatorEvent)
    (battle_time_frames : Option ℤ) : List RadiatorInterval :=
  specGo events none
where
  specGo : List RadiatorEvent → Option ℤ → List RadiatorInterval
    | [], openStart =>
        match openStart, battle_time_frames with
        | some s, some b =>
            [{ start_frame := s, end_frame := b, auto_extended := true }]
        | _, _ => []
    | e :: rest, none =>
        if e.is_start then specGo rest (some e.frame) else specGo rest none
    | e :: rest, some s =>
        if e.is_end then
          { start_frame := s, end_frame := e.frame, auto_extended := false } ::
            specGo rest none
        else specGo rest (some s)

/-!  Concrete instances used by the witness and counterexample theorems. -/

/-- A default settings object (every option absent / disabled). -/
def settingsW : Settings :=
  { max_cost := none, battle_time := none, ss_enabled := false,
    special_command_accepted := "", modifier_always_forward := none,
    time_display_format := none, seia_koyuu2 := none, kanoe_ss := 0,
    cherino_ss := 0 }

/-- A row with every field absent. -/
def emptyRow : Row :=
  { frame := none, time := none, reference := none, modifier := none,
    modified_amount := none, cost_timing := none,
    explicit_cost_timing := false, cost_used := 0, event_name := "",
    label := none, note := [], duration := none, value := 0, target := none,
    is_special_command := false }

/-- A minimal processor state: frame 0, empty accumulator, zero rate, no
students, ceiling 10 cost (3,000,000 points), no buff data. -/
def procW : Proc :=
  { settings := settingsW, buff_data := none, max_cost_points := 3000000,
    ss_enabled := false,
    state := { remaining_cost_points := 0, total_cost_recovery := 0,
               remaining_students := 0, current_frame := 0 },
    label_map := fun _ => none, timeline := [], additional_events := [] }

/-- A commit at frame 10 consuming 1 cost, used by the C1 witness. -/
def commitW : Commit := .row 10 1 "x" [] none

/-- The processor state after `commitW` on `procW`. -/
def procW1 : Proc :=
  { procW with
    state := { remaining_cost_points := -300000, total_cost_recovery := 0,
               remaining_students := 0, current_frame := 10 },
    timeline := [{ frame := 10, cost_used := 1, event_name := "x", note := [],
                   overflow_cost := some 0,
                   current_cost_display_only := -1,
                   remaining_cost_points := -300000, total_cost_recovery := 0,
                   remaining_students := 0 }] }

/-- A processor mid-run: frame 500, 2 cost stored, rate 4200. -/
def procC2 : Proc :=
  { procW with
    state := { remaining_cost_points := 600000, total_cost_recovery := 4200,
               remaining_students := 6, current_frame := 500 } }

/-- `procC2` with a zero accrual rate. -/
def procC2zero : Proc :=
  { procC2 with
    state := { procC2.state with total_cost_recovery := 0 } }

/-- A row carrying an explicit cost-timing anchor. -/
def rowExpl : Row := { emptyRow with explicit_cost_timing := true }

/-- A frame-anchored row at frame 70, used by the C7 witness. -/
def rowW : Row := { emptyRow with frame := some 70, event_name := "テスト" }

/-- The processor state after resolving `rowW` from `procW`. -/
def procWrow : Proc :=
  { procW with
    state := { remaining_cost_points := 0, total_cost_recovery := 0,
               remaining_students := 0, current_frame := 70 },
    timeline := [{ frame := 70, cost_used := 0, event_name := "テスト",
                   note := [], overflow_cost := some 0,
                   current_cost_display_only := 0, remaining_cost_points := 0,
                   total_cost_recovery := 0, remaining_students := 0 }] }

/-- `rowW` after resolution (frame and time written back). -/
def rowW1 : Row := { rowW with frame := some 70, time := some (7 / 3) }

/-- A pending (not yet started) セイア buff interval over frames
100–500. -/
def pendingBuffW : BuffEvent :=
  { start_frame := 100, end_frame := 500, event_name := "セイアEX",
    buff_target := "セイア", duration := 0, buff_amount := 718,
    active := false }

/-- `pendingBuffW` with its start transition committed. -/
def activeBuffW : BuffEvent := { pendingBuffW with active := true }

/-- Six distinct individually-targeted active buffs over frames 0–1000. -/
def sixBuffsW : List BuffEvent :=
  [ { start_frame := 0, end_frame := 1000, event_name := "b1",
      buff_target := "t1", duration := 0, buff_amount := 100, active := true }
  , { start_frame := 0, end_frame := 1000, event_name := "b2",
      buff_target := "t2", duration := 0, buff_amount := 100, active := true }
  , { start_frame := 0, end_frame := 1000, event_name := "b3",
      buff_target := "t3", duration := 0, buff_amount := 100, active := true }
  , { start_frame := 0, end_frame := 1000, event_name := "b4",
      buff_target := "t4", duration := 0, buff_amount := 100, active := true }
  , { start_frame := 0, end_frame := 1000, event_name := "b5",
      buff_target := "t5", duration := 0, buff_amount := 100, active := true }
  , { start_frame := 0, end_frame := 1000, event_name := "b6",
      buff_target := "t6", duration := 0, buff_amount := 100, active := true } ]

/-- A label map resolving `"未来"` to an entry without any time or frame
(a forward label that has not committed yet). -/
def labelMapW : String → Option LabelEntry := fun s =>
  if s = "未来" then some { time := none, frame := none } else none

/-- A processor whose label map is `labelMapW` and whose settings force
`modifier_always_forward = 'yes'`. -/
def procLblW : Proc :=
  { procW with
    settings := { settingsW with modifier_always_forward := some "yes" },
    label_map := labelMapW }

/-- A row anchored on the unresolved label `"未来"` with offset `+2`
seconds. -/
def rowRefW : Row :=
  { emptyRow with
    reference := some "未来", modifier := some '+',
    modified_amount := some 2 }

/-- `rowRefW` with the forward-label annotation attached. -/
def rowRefW1 : Row :=
  { rowRefW with note := [forwardLabelMsg "未来"] }

/-- `rowExpl` with the already-satisfied annotation for target cost 2. -/
def rowExplNoted : Row := { rowExpl with note := [alreadyReachedMsg 2] }

/-- The output of a conversion run with no input rows and default
settings: the two default events only. -/
def tjEmpty : TimelineJSON :=
  { timeline :=
      [ { frame := 0, cost_used := 0, event_name := "タイム計測開始", note := [],
          overflow_cost := none, current_cost_display_only := 0,
          remaining_cost_points := 0, total_cost_recovery := 0,
          remaining_students := 0 }
      , { frame := 60, cost_used := 0, event_name := "戦闘開始", note := [],
          overflow_cost := some 0, current_cost_display_only := 0,
          remaining_cost_points := 0, total_cost_recovery := 4200,
          remaining_students := 6 } ]
    additional_events := []
    final_cost := 0
    final_frame := 60 }

/-- `emptyRow` after being clamped to frame 500 with the "reordered"
annotation. -/
def rowReordered : Row :=
  { emptyRow with
    frame := some 500, time := some (50 / 3), note := [reorderedMsg] }

/-- The processor state after committing `emptyRow` clamped to frame 500
from `procC2`. -/
def procC2clamped : Proc :=
  { procC2 with
    state := { remaining_cost_points := 600000, total_cost_recovery := 4200,
               remaining_students := 6, current_frame := 500 },
    timeline := [{ frame := 500, cost_used := 0, event_name := "",
                   note := [reorderedMsg], overflow_cost := none,
                   current_cost_display_only := 2,
                   remaining_cost_points := 600000,
                   total_cost_recovery := 4200, remaining_students := 6 }] }

/-- A commit at frame 400 consuming 1 cost (used against `procC2`, whose
current frame 500 already lies beyond it). -/
def commitLate : Commit := .row 400 1 "y" [] none

/-- The frames of the committed log, in commit order. -/
def framesOf (p : Proc) : List ℤ := p.timeline.map (fun e => e.frame)

/-- The scheduler invariant: the committed frames are pairwise
non-decreasing (`∀ i < j, frame i ≤ frame j`) and all lie at or before the
current frame. -/
def ProcInv (p : Proc) : Prop :=
  List.Pairwise (· ≤ ·) (framesOf p) ∧ ∀ x ∈ framesOf p, x ≤ p.state.current_frame

/-- The target frame a `FoundTrans` commits at (the field
`findMostRecentAdditionalEvent` selected). -/
def transTarget (ft : FoundTrans) : ℤ :=
  commitTarget (.trans ft.event ft.kind ft.idx)

/-!  Helper lemmas. -/

theorem addEventToTimeline_ok_elim {p : Proc} {c : Commit} {p' : Proc}
    (h : addEventToTimeline p c = .ok p') :
    ∃ recov,
      calculateTotalCostRecovery (applyTransitionFlag p.additional_events c)
          (commitTarget c) p.ss_enabled
          ((commitStudents c).getD p.state.remaining_students) = .ok recov ∧
        p' = addEventCore p c recov := by
  unfold addEventToTimeline at h
  split at h
  · exact Except.noConfusion h
  · rename_i recov heq
    injection h with h
    exact ⟨recov, heq, h.symm⟩

theorem addEventToTimeline_ok_intro {p : Proc} {c : Commit} {recov : ℚ}
    (h : calculateTotalCostRecovery (applyTransitionFlag p.additional_events c)
        (commitTarget c) p.ss_enabled
        ((commitStudents c).getD p.state.remaining_students) = .ok recov) :
    addEventToTimeline p c = .ok (addEventCore p c recov) := by
  unfold addEventToTimeline
  rw [h]

theorem addEventCore_timeline (p : Proc) (c : Commit) (recov : ℚ) :
    (addEventCore p c recov).timeline = p.timeline ++ [committedEvent p c recov] := rfl

theorem addEventCore_frame (p : Proc) (c : Commit) (recov : ℚ) :
    (addEventCore p c recov).state.current_frame = commitTarget c := rfl

theorem committedEvent_frame (p : Proc) (c : Commit) (recov : ℚ) :
    (committedEvent p c recov).frame = commitTarget c := rfl

theorem calculateTotalCostRecovery_nil_zero (cf : ℤ) (ss : Bool) :
    calculateTotalCostRecovery [] cf ss 0 = .ok 0 := by
  simp [calculateTotalCostRecovery, individualActiveBuffs, allStudentActiveBuffs,
    globalActiveBuffs]

theorem calculateTotalCostRecovery_nil_ok (cf : ℤ) (ss : Bool) (students : ℤ) :
    ∃ r, calculateTotalCostRecovery [] cf ss students = .ok r := by
  simp [calculateTotalCostRecovery, individualActiveBuffs, allStudentActiveBuffs,
    globalActiveBuffs]

theorem updateLabel_timeline (p : Proc) (row : Row) (fe : ℤ) :
    (updateLabel p row fe).timeline = p.timeline := by
  unfold updateLabel
  split
  · rfl
  · split <;> rfl

theorem updateLabel_state (p : Proc) (row : Row) (fe : ℤ) :
    (updateLabel p row fe).state = p.state := by
  unfold updateLabel
  split
  · rfl
  · split <;> rfl

theorem updateLabel_additional (p : Proc) (row : Row) (fe : ℤ) :
    (updateLabel p row fe).additional_events = p.additional_events := by
  unfold updateLabel
  split
  · rfl
  · split <;> rfl

theorem detectAndProcessBuff_timeline (p : Proc) (n : String) (f : ℤ) :
    (detectAndProcessBuff p n f).timeline = p.timeline := by
  unfold detectAndProcessBuff
  split <;> rfl

theorem detectAndProcessBuff_state (p : Proc) (n : String) (f : ℤ) :
    (detectAndProcessBuff p n f).state = p.state := by
  unfold detectAndProcessBuff
  split <;> rfl

theorem detectAndProcessBuff_consts (p : Proc) (n : String) (f : ℤ) :
    (detectAndProcessBuff p n f).max_cost_points = p.max_cost_points ∧
      (detectAndProcessBuff p n f).ss_enabled = p.ss_enabled := by
  unfold detectAndProcessBuff
  split <;> exact ⟨rfl, rfl⟩

theorem addKanoeSS_timeline (p : Proc) : (addKanoeSS p).timeline = p.timeline := by
  simp only [addKanoeSS]
  repeat' split
  all_goals rfl

theorem addKanoeSS_state (p : Proc) : (addKanoeSS p).state = p.state := by
  simp only [addKanoeSS]
  repeat' split
  all_goals rfl

theorem addCherinoSS_timeline (p : Proc) :
    (addCherinoSS p).timeline = p.timeline := by
  simp only [addCherinoSS]
  repeat' split
  all_goals rfl

theorem addCherinoSS_state (p : Proc) : (addCherinoSS p).state = p.state := by
  simp only [addCherinoSS]
  repeat' split
  all_goals rfl

theorem processSpecialCommand_timeline (p : Proc) (row : Row) :
    (processSpecialCommand p row).2.timeline = p.timeline := by
  simp only [processSpecialCommand]
  repeat' split
  all_goals rfl

theorem processSpecialCommand_state (p : Proc) (row : Row) :
    (processSpecialCommand p row).2.state = p.state := by
  simp only [processSpecialCommand]
  repeat' split
  all_goals rfl

theorem transCandidate_sound {cf : ℤ} {i : ℕ} {e : BuffEvent} {c : FoundTrans}
    (h : transCandidate cf i e = some c) :
    cf ≤ c.frame ∧ c.frame = transTarget c ∧
      (c.kind = TransKind.start → c.event.active = false ∧ cf ≤ c.event.start_frame) := by
  unfold transCandidate at h
  split at h
  · exact Option.noConfusion h
  · rename_i hend
    split at h
    · rename_i hact
      injection h with h
      subst h
      refine ⟨le_of_not_lt hend, rfl, ?_⟩
      intro hk
      exact TransKind.noConfusion hk
    · rename_i hact
      split at h
      · rename_i hstart
        injection h with h
        subst h
        exact ⟨hstart, rfl, fun _ => ⟨Bool.of_not_eq_true hact, hstart⟩⟩
      · exact Option.noConfusion h

theorem findFrom_sound {cf : ℤ} :
    ∀ (events : List BuffEvent) (i : ℕ) (acc : Option FoundTrans),
      (∀ c, acc = some c → cf ≤ c.frame ∧ c.frame = transTarget c ∧
        (c.kind = TransKind.start → c.event.active = false ∧ cf ≤ c.event.start_frame)) →
      ∀ ft, findFrom events cf i acc = some ft →
        cf ≤ ft.frame ∧ ft.frame = transTarget ft ∧
          (ft.kind = TransKind.start → ft.event.active = false ∧ cf ≤ ft.event.start_frame) := by
  intro events
  induction events with
  | nil =>
      intro i acc hacc ft h
      exact hacc ft h
  | cons e rest ih =>
      intro i acc hacc ft h
      unfold findFrom at h
      cases hcand : transCandidate cf i e with
      | none =>
          rw [hcand] at h
          exact ih (i + 1) acc hacc ft h
      | some cand =>
          rw [hcand] at h
          cases acc with
          | none =>
              refine ih (i + 1) (some cand) ?_ ft h
              intro c hc
              injection hc with hc
              subst hc
              exact transCandidate_sound hcand
          | some best =>
              by_cases hlt : cand.frame < best.frame
              · simp only [if_pos hlt] at h
                refine ih (i + 1) (some cand) ?_ ft h
                intro c hc
                injection hc with hc
                subst hc
                exact transCandidate_sound hcand
              · simp only [if_neg hlt] at h
                refine ih (i + 1) (some best) ?_ ft h
                intro c hc
                injection hc with hc
                subst hc
                exact hacc best rfl

theorem findMostRecentAdditionalEvent_sound {events : List BuffEvent}
    {cf : ℤ} {ft : FoundTrans}
    (h : findMostRecentAdditionalEvent events cf = some ft) :
    cf ≤ ft.frame ∧ ft.frame = transTarget ft ∧
      (ft.kind = TransKind.start → ft.event.active = false ∧ cf ≤ ft.event.start_frame) :=
  findFrom_sound events 0 none (fun _ hc => Option.noConfusion hc) ft h

theorem addEvent_inv {p : Proc} {c : Commit} {p' : Proc} (hInv : ProcInv p)
    (hle : p.state.current_frame ≤ commitTarget c)
    (h : addEventToTimeline p c = .ok p') :
    ProcInv p' ∧ p.state.current_frame ≤ p'.state.current_frame ∧
      p'.state.current_frame = commitTarget c := by
  obtain ⟨recov, _, hp'⟩ := addEventToTimeline_ok_elim h
  subst hp'
  have hframes : framesOf (addEventCore p c recov) = framesOf p ++ [commitTarget c] := by
    simp [framesOf, addEventCore_timeline, committedEvent_frame]
  refine ⟨⟨?_, ?_⟩, hle, rfl⟩
  · rw [hframes]
    refine List.pairwise_append.mpr ⟨hInv.1, List.pairwise_singleton _ _, ?_⟩
    intro a ha b hb
    rw [List.mem_singleton] at hb
    subst hb
    exact le_trans (hInv.2 a ha) hle
  · intro x hx
    rw [hframes, List.mem_append, List.mem_singleton] at hx
    rw [addEventCore_frame]
    rcases hx with hx | hx
    · exact le_trans (hInv.2 x hx) hle
    · exact le_of_eq hx

theorem addEvent_length {p : Proc} {c : Commit} {p' : Proc}
    (h : addEventToTimeline p c = .ok p') :
    p'.timeline.length = p.timeline.length + 1 := by
  obtain ⟨recov, _, hp'⟩ := addEventToTimeline_ok_elim h
  subst hp'
  simp [addEventCore_timeline]

theorem resolveLoopAux_inv {index : ℕ} :
    ∀ (fuel : ℕ) (p : Proc) (row : Row) (r : Proc × Row × ℤ),
      ProcInv p → resolveLoopAux p row index fuel = .ok r →
      ProcInv r.1 ∧ p.state.current_frame ≤ r.1.state.current_frame := by
  intro fuel
  induction fuel with
  | zero =>
      intro p row r _ h
      exact Except.noConfusion h
  | succ n ih =>
      intro p row r hInv h
      unfold resolveLoopAux at h
      split at h
      · exact Except.noConfusion h
      · rename_i fe1 row1 _
        split at h
        · rename_i ft hfind
          split at h
          · split at h
            · exact Except.noConfusion h
            · rename_i p1 hadd
              obtain ⟨hs, hfr, _⟩ := findMostRecentAdditionalEvent_sound hfind
              have hle : p.state.current_frame ≤ commitTarget (.trans ft.event ft.kind ft.idx) := by
                have : transTarget ft = commitTarget (.trans ft.event ft.kind ft.idx) := rfl
                rw [← this, ← hfr]
                exact hs
              obtain ⟨hInv1, hcf1, _⟩ := addEvent_inv hInv hle hadd
              obtain ⟨hInv2, hcf2⟩ := ih p1 row1 r hInv1 h
              exact ⟨hInv2, le_trans hcf1 hcf2⟩
          · injection h with h
            subst h
            exact ⟨hInv, le_refl _⟩
        · injection h with h
          subst h
          exact ⟨hInv, le_refl _⟩

theorem ProcInv_congr {p q : Proc} (ht : q.timeline = p.timeline)
    (hs : q.state = p.state) (h : ProcInv p) : ProcInv q := by
  unfold ProcInv framesOf
  rw [ht, hs]
  exact h

theorem commitRow_inv {p : Proc} {row : Row} {fe : ℤ} {r : Proc × Row}
    (hInv : ProcInv p) (h : commitRow p row fe = .ok r) :
    ProcInv r.1 ∧ p.state.current_frame ≤ r.1.state.current_frame := by
  simp only [commitRow] at h
  split at h
  · exact Except.noConfusion h
  · rename_i p3 hadd
    injection h with h
    subst h
    have hp2t : ∀ (rr : Row) (n : String) (f : ℤ),
        (detectAndProcessBuff (updateLabel p rr f) n f).timeline = p.timeline := by
      intro rr n f
      rw [detectAndProcessBuff_timeline, updateLabel_timeline]
    have hp2s : ∀ (rr : Row) (n : String) (f : ℤ),
        (detectAndProcessBuff (updateLabel p rr f) n f).state = p.state := by
      intro rr n f
      rw [detectAndProcessBuff_state, updateLabel_state]
    have hfe1 : p.state.current_frame ≤
        (if fe < p.state.current_frame then p.state.current_frame else fe) := by
      split
      · exact le_refl _
      · rename_i hnlt
        exact le_of_not_lt hnlt
    obtain ⟨hInv3, hcf3, _⟩ :=
      addEvent_inv (ProcInv_congr (hp2t _ _ _) (hp2s _ _ _) hInv)
        (by rw [hp2s]; exact hfe1) hadd
    rw [hp2s] at hcf3
    exact ⟨hInv3, hcf3⟩

theorem resolveRowTiming_inv {p : Proc} {row : Row} {index : ℕ} {r : Proc × Row}
    (hInv : ProcInv p) (h : resolveRowTiming p row index = .ok r) :
    ProcInv r.1 := by
  unfold resolveRowTiming at h
  split at h
  · exact Except.noConfusion h
  · rename_i r0 heq
    injection h with h
    subst h
    split at heq
    · exact Except.noConfusion heq
    · rename_i p1 row1 fe hloop
      exact (commitRow_inv (resolveLoopAux_inv 100 p row (p1, row1, fe) hInv hloop).1 heq).1

theorem createTimelineLoop_inv :
    ∀ (rows : List Row) (p : Proc) (i : ℕ) (p' : Proc),
      ProcInv p → createTimelineLoop p rows i = .ok p' → ProcInv p' := by
  intro rows
  induction rows with
  | nil =>
      intro p i p' hInv h
      injection h with h
      subst h
      exact hInv
  | cons row rest ih =>
      intro p i p' hInv h
      simp only [createTimelineLoop] at h
      have hInv1 : ProcInv (processSpecialCommand p row).2 :=
        ProcInv_congr (processSpecialCommand_timeline p row)
          (processSpecialCommand_state p row) hInv
      split at h
      · exact ih _ _ _ hInv1 h
      · split at h
        · exact Except.noConfusion h
        · rename_i r hrow
          exact ih _ _ _ (resolveRowTiming_inv hInv1 hrow) h

theorem initTimelineProcessor_inv {input : List Row} {settings : Settings}
    {bd : Option Catalog} {p : Proc}
    (h : initTimelineProcessor input settings bd = .ok p) : ProcInv p := by
  simp only [initTimelineProcessor] at h
  split at h
  · exact Except.noConfusion h
  · rename_i p1 h1
    split at h
    · exact Except.noConfusion h
    · rename_i p2 h2
      injection h with h
      subst h
      have hInv0 : ProcInv
          { settings := settings, buff_data := bd,
            max_cost_points := jsOrQ settings.max_cost DEFAULT_MAX_COST * COST_POINT_UNIT,
            ss_enabled := settings.ss_enabled,
            state := { remaining_cost_points := 0, total_cost_recovery := 0,
                       remaining_students := 0, current_frame := 0 },
            label_map := buildLabelMap input, timeline := [],
            additional_events := [] } := by
        constructor
        · exact List.Pairwise.nil
        · intro x hx
          exact absurd hx (List.not_mem_nil x)
      obtain ⟨hInv1, _, hcf1⟩ := addEvent_inv hInv0 (by norm_num [commitTarget, timeStartCommit]) h1
      have hle1 : p1.state.current_frame ≤ commitTarget battleStartCommit := by
        rw [hcf1]
        norm_num [commitTarget, timeStartCommit, battleStartCommit]
      obtain ⟨hInv2, _, _⟩ := addEvent_inv hInv1 hle1 h2
      exact ProcInv_congr
        (by rw [addCherinoSS_timeline, addKanoeSS_timeline])
        (by rw [addCherinoSS_state, addKanoeSS_state]) hInv2

theorem resolveLoopAux_length {index : ℕ} :
    ∀ (fuel : ℕ) (p : Proc) (row : Row) (r : Proc × Row × ℤ),
      resolveLoopAux p row index fuel = .ok r →
      r.1.timeline.length ≤ p.timeline.length + fuel := by
  intro fuel
  induction fuel with
  | zero =>
      intro p row r h
      exact Except.noConfusion h
  | succ n ih =>
      intro p row r h
      unfold resolveLoopAux at h
      split at h
      · exact Except.noConfusion h
      · split at h
        · split at h
          · split at h
            · exact Except.noConfusion h
            · rename_i p1 hadd
              have := ih p1 _ r h
              rw [addEvent_length hadd] at this
              omega
          · injection h with h
            subst h
            exact Nat.le_add_right _ _
        · injection h with h
          subst h
          exact Nat.le_add_right _ _

theorem commitRow_length {p : Proc} {row : Row} {fe : ℤ} {r : Proc × Row}
    (h : commitRow p row fe = .ok r) :
    r.1.timeline.length = p.timeline.length + 1 := by
  simp only [commitRow] at h
  split at h
  · exact Except.noConfusion h
  · rename_i p3 hadd
    injection h with h
    subst h
    have := addEvent_length hadd
    rw [detectAndProcessBuff_timeline, updateLabel_timeline] at this
    exact this

theorem addEvent_append {p : Proc} {c : Commit} {p' : Proc}
    (h : addEventToTimeline p c = .ok p') :
    ∃ ev, p'.timeline = p.timeline ++ [ev] ∧ ev.frame = commitTarget c ∧
      ev.note = commitNote c := by
  obtain ⟨recov, _, hp'⟩ := addEventToTimeline_ok_elim h
  subst hp'
  exact ⟨committedEvent p c recov, rfl, rfl, rfl⟩

theorem commitRow_clamped {p : Proc} {row : Row} {fe : ℤ} {r : Proc × Row}
    (hlt : fe < p.state.current_frame) (h : commitRow p row fe = .ok r) :
    ∃ ev, r.1.timeline = p.timeline ++ [ev] ∧
      ev.frame = p.state.current_frame ∧ reorderedMsg ∈ ev.note ∧
      r.2.frame = some p.state.current_frame := by
  simp only [commitRow, if_pos hlt] at h
  split at h
  · exact Except.noConfusion h
  · rename_i p3 hadd
    injection h with h
    subst h
    obtain ⟨ev, hevt, hevf, hevn⟩ := addEvent_append hadd
    refine ⟨ev, ?_, ?_, ?_, rfl⟩
    · show p3.timeline = p.timeline ++ [ev]
      rw [hevt, detectAndProcessBuff_timeline, updateLabel_timeline]
    · rw [hevf]
      rfl
    · rw [hevn]
      show reorderedMsg ∈ row.note ++ [reorderedMsg]
      simp

theorem accrueAndClamp_of_lt {p : Proc} {target : ℤ}
    (h : p.state.current_frame < target) :
    accrueAndClamp p target =
      (min (unclampedPoints p target) p.max_cost_points,
        some (max 0 (unclampedPoints p target - p.max_cost_points) / COST_POINT_UNIT)) := by
  unfold accrueAndClamp unclampedPoints
  rw [if_pos h]
  by_cases hc : p.max_cost_points <
      p.state.remaining_cost_points +
        ((target - p.state.current_frame : ℤ) : ℚ) * p.state.total_cost_recovery
  · rw [if_pos hc]
    refine Prod.ext ?_ ?_
    · exact (min_eq_right (le_of_lt hc)).symm
    · show some _ = some _
      rw [max_eq_right (sub_nonneg.mpr (le_of_lt hc))]
  · rw [if_neg hc]
    refine Prod.ext ?_ ?_
    · exact (min_eq_left (not_lt.mp hc)).symm
    · show some (0 : ℚ) = some _
      rw [max_eq_left (sub_nonpos.mpr (not_lt.mp hc)), zero_div]

theorem accrueAndClamp_of_ge {p : Proc} {target : ℤ}
    (h : target ≤ p.state.current_frame) :
    accrueAndClamp p target = (p.state.remaining_cost_points, none) := by
  unfold accrueAndClamp
  rw [if_neg (not_lt.mpr h)]

theorem committedPoints_eq (p : Proc) (c : Commit) :
    committedPoints p c =
      (accrueAndClamp p (commitTarget c)).1 -
        (if commitIsRow c = true then commitCostUsed c * COST_POINT_UNIT else 0) := by
  unfold committedPoints
  by_cases h1 : commitIsRow c = true ∧ commitCostUsed c ≠ 0
  · rw [if_pos h1, if_pos h1.1]
  · rw [if_neg h1]
    by_cases h2 : commitIsRow c = true
    · have h3 : commitCostUsed c = 0 := by
        by_contra hne
        exact h1 ⟨h2, hne⟩
      rw [if_pos h2, h3, mul_comm, mul_zero, sub_zero]
    · rw [if_neg h2, sub_zero]

/-!  Claim theorems. -/

/-- C1: for every commit of an event at a target frame strictly greater
than the current frame, the engine first adds
`(target − current) × total_cost_recovery` points to the accumulator; the
stored accumulator is the clamped value `min unclamped ceiling` and the
committed event records `max 0 (unclamped − ceiling) / COST_POINT_UNIT` as
overflow (so overflow is 0 exactly when no clamping happened); the cost
payment `cost_used × COST_POINT_UNIT` is applied to the clamped value,
i.e. strictly after accrual, clamping and the frame advance. -/
theorem commit_accrual_clamp_then_pay (p : Proc) (c : Commit) (p' : Proc)
    (hf : p.state.current_frame < commitTarget c)
    (h : addEventToTimeline p c = .ok p') :
    p'.state.remaining_cost_points =
      min (unclampedPoints p (commitTarget c)) p.max_cost_points -
        (if commitIsRow c = true then commitCostUsed c * COST_POINT_UNIT else 0) ∧
    p'.state.current_frame = commitTarget c ∧
    ∃ ev, p'.timeline = p.timeline ++ [ev] ∧
      ev.overflow_cost =
        some (max 0 (unclampedPoints p (commitTarget c) - p.max_cost_points) /
          COST_POINT_UNIT) ∧
      ev.remaining_cost_points = p'.state.remaining_cost_points := by
  obtain ⟨recov, _, hp'⟩ := addEventToTimeline_ok_elim h
  subst hp'
  refine ⟨?_, rfl, committedEvent p c recov, rfl, ?_, rfl⟩
  · show committedPoints p c = _
    rw [committedPoints_eq, accrueAndClamp_of_lt hf]
  · show (accrueAndClamp p (commitTarget c)).2 = _
    rw [accrueAndClamp_of_lt hf]

theorem commit_accrual_clamp_then_pay_witness :
    (addEventCore procW commitW 0).state.remaining_cost_points =
      min (unclampedPoints procW (commitTarget commitW)) procW.max_cost_points -
        (if commitIsRow commitW = true then
          commitCostUsed commitW * COST_POINT_UNIT else 0) ∧
    (addEventCore procW commitW 0).state.current_frame = commitTarget commitW ∧
    ∃ ev, (addEventCore procW commitW 0).timeline = procW.timeline ++ [ev] ∧
      ev.overflow_cost =
        some (max 0 (unclampedPoints procW (commitTarget commitW) -
          procW.max_cost_points) / COST_POINT_UNIT) ∧
      ev.remaining_cost_points = (addEventCore procW commitW 0).state.remaining_cost_points :=
  commit_accrual_clamp_then_pay procW commitW (addEventCore procW commitW 0)
    (by decide)
    (addEventToTimeline_ok_intro (by with_unfolding_all rfl))

/-- C2: for a row anchored on a target resource level: when the current
level already meets the target, resolution yields the unchanged current
frame and attaches the already-satisfied annotation exactly when the
anchor was explicit; otherwise a non-positive accrual rate fails with the
zero-accrual-rate error, and a positive rate yields
`current_frame + ceil((target − current) × point_unit / rate)`. -/
theorem cost_timing_resolution (p : Proc) (cost_timing : ℚ) (row : Row) :
    (cost_timing ≤ p.state.remaining_cost_points / COST_POINT_UNIT →
      calculateFramesFromCostTiming p cost_timing row =
        .ok (p.state.current_frame,
          if row.explicit_cost_timing then
            { row with note := row.note ++ [alreadyReachedMsg cost_timing] }
          else row)) ∧
    (p.state.remaining_cost_points / COST_POINT_UNIT < cost_timing →
      p.state.total_cost_recovery ≤ 0 →
      calculateFramesFromCostTiming p cost_timing row = .error zeroRecoveryMsg) ∧
    (p.state.remaining_cost_points / COST_POINT_UNIT < cost_timing →
      0 < p.state.total_cost_recovery →
      calculateFramesFromCostTiming p cost_timing row =
        .ok (p.state.current_frame +
          ⌈(cost_timing - p.state.remaining_cost_points / COST_POINT_UNIT) *
            COST_POINT_UNIT / p.state.total_cost_recovery⌉, row)) := by
  refine ⟨?_, ?_, ?_⟩
  · intro h
    simp only [calculateFramesFromCostTiming]
    rw [if_pos h]
  · intro h1 h2
    simp only [calculateFramesFromCostTiming]
    rw [if_neg (not_le.mpr h1), if_pos h2]
  · intro h1 h2
    simp only [calculateFramesFromCostTiming]
    rw [if_neg (not_le.mpr h1), if_neg (not_le.mpr h2)]

theorem cost_timing_resolution_witness :
    calculateFramesFromCostTiming procC2 2 rowExpl = .ok (500, rowExplNoted) ∧
    calculateFramesFromCostTiming procC2zero 5 emptyRow = .error zeroRecoveryMsg ∧
    calculateFramesFromCostTiming procC2 5 emptyRow = .ok (715, emptyRow) := by
  refine ⟨?_, ?_, ?_⟩
  · have := (cost_timing_resolution procC2 2 rowExpl).1
      (by with_unfolding_all decide)
    with_unfolding_all exact this
  · exact (cost_timing_resolution procC2zero 5 emptyRow).2.1
      (by with_unfolding_all decide) (by with_unfolding_all decide)
  · have := (cost_timing_resolution procC2 5 emptyRow).2.2
      (by with_unfolding_all decide) (by with_unfolding_all decide)
    with_unfolding_all exact this

/-- C8: running the full conversion twice with the row set, catalog and
settings unchanged yields identical resolved outputs — the conversion is
a deterministic function of its inputs. -/
theorem conversion_deterministic (input : List Row) (settings : Settings)
    (buff_data : Option Catalog) :
    runTimelineProcessor input settings buff_data =
      runTimelineProcessor input settings buff_data := rfl

theorem radiatorScan_eq_specGo (battle_time_frames : Option ℤ) :
    ∀ (events : List RadiatorEvent) (cur : Option ℤ),
      radiatorScan events cur battle_time_frames =
        radiatorIntervalsSpec.specGo battle_time_frames events cur := by
  intro events
  induction events with
  | nil =>
      intro cur
      cases cur with
      | none => rfl
      | some s => cases battle_time_frames <;> rfl
  | cons e rest ih =>
      intro cur
      cases cur with
      | none =>
          by_cases h : e.is_start = true <;>
            simp [radiatorScan, radiatorIntervalsSpec.specGo, h, ih]
      | some s =>
          by_cases h : e.is_end = true <;>
            simp [radiatorScan, radiatorIntervalsSpec.specGo, h, ih]

/-- C9: the radiator scan builds intervals exactly as described (a start
marker opens when none is open, an end marker closes the open interval,
stray end markers are ignored, a still-open interval is extended to the
supplied end frame), and `isRadiatorActiveAt` holds exactly when some
computed interval contains the frame half-openly. -/
theorem radiator_intervals_correct (events : List RadiatorEvent)
    (battle_time_frames : Option ℤ) (frame : ℤ) :
    calculateRadiatorIntervals events battle_time_frames =
        radiatorIntervalsSpec events battle_time_frames ∧
      (isRadiatorActiveAt (calculateRadiatorIntervals events battle_time_frames)
          frame = true ↔
        ∃ iv ∈ calculateRadiatorIntervals events battle_time_frames,
          iv.start_frame ≤ frame ∧ frame < iv.end_frame) := by
  constructor
  · exact radiatorScan_eq_specGo battle_time_frames events none
  · simp [isRadiatorActiveAt, List.any_eq_true]

/-- C5 (amended): the accrual-rate recomputation fails exactly when at
least 7 individually-targeted buffs are active — one more than the fixed
squad size of 6 — independently of the current participant count. -/
theorem cost_recovery_buff_limit (additional_events : List BuffEvent)
    (current_frame : ℤ) (ss_enabled : Bool) (active_students : ℤ) :
    (∃ e, calculateTotalCostRecovery additional_events current_frame ss_enabled
        active_students = .error e) ↔
      7 ≤ (individualActiveBuffs additional_events current_frame).length := by
  simp only [calculateTotalCostRecovery]
  split
  · rename_i h
    exact ⟨fun _ => h, fun _ => ⟨_, rfl⟩⟩
  · rename_i h
    constructor
    · rintro ⟨e, he⟩
      exact Except.noConfusion he
    · intro hh
      exact absurd hh h

/-- C5 counterexample: with 6 individually-targeted active buffs and only
5 active participants the individual buffs outnumber the participants,
yet the recomputation succeeds (returning 4800) instead of failing, so the
failure condition is not "individual buffs outnumber participants". -/
theorem cost_recovery_not_participant_bound :
    calculateTotalCostRecovery sixBuffsW 100 false 5 = .ok 4800 ∧
      (5 : ℤ) < ((individualActiveBuffs sixBuffsW 100).length : ℤ) := by
  constructor
  · with_unfolding_all rfl
  · with_unfolding_all decide

/-- C6 counterexample: a row anchored on the label `"未来"`, which is
registered but has neither a resolved frame nor a time, with the signed
offset `+2` seconds requested, resolves successfully to frame
`0 + 60 = 60` with the annotation attached — it does not fail with any
error. -/
theorem forward_label_no_error :
    estimateFrameFromRow procLblW rowRefW = .ok (60, rowRefW1) := by
  with_unfolding_all rfl

/-- C6 (amended): when the referenced label exists but has no resolved
frame or time yet and a signed offset was requested, resolution does not
fail: it attaches the "time required" annotation and resolves the row
relative to frame 0, i.e. to `interpretSign × offset frames`. -/
theorem forward_label_fallback (row : Row)
    (label_map : String → Option LabelEntry) (settings : Settings)
    (r : String) (ent : LabelEntry)
    (href : row.reference = some r) (hr : r ≠ "")
    (hent : label_map r = some ent) (hf : ent.frame = none)
    (ht : ent.time = none) (hmod : row.modifier.isSome = true)
    (hamt : truthyQ row.modified_amount = true) :
    calculateFramesFromReference row label_map settings =
      (interpretSign row.modifier settings *
          secondsToFrames (jsOrQ row.modified_amount 0),
        { row with note := row.note ++ [forwardLabelMsg r] }) := by
  have hlbl : jsOrStr row.reference "" = r := by
    rw [href]
    simp [jsOrStr, hr]
  have hti : truthyInt ent.frame = false := by rw [hf]; rfl
  have htq : truthyQ ent.time = false := by rw [ht]; rfl
  simp only [calculateFramesFromReference, hlbl, hent]
  rw [if_neg (by simp [hmod])]
  simp only [hti, htq, hamt, hmod, Bool.false_eq_true, if_false, if_true,
    and_self, ite_true, ite_false, zero_add]

theorem forward_label_fallback_witness :
    calculateFramesFromReference rowRefW labelMapW procLblW.settings =
      (interpretSign rowRefW.modifier procLblW.settings *
          secondsToFrames (jsOrQ rowRefW.modified_amount 0),
        { rowRefW with note := rowRefW.note ++ [forwardLabelMsg "未来"] }) :=
  forward_label_fallback rowRefW labelMapW procLblW.settings "未来"
    { time := none, frame := none } (by rfl) (by decide) (by rfl) (by rfl)
    (by rfl) (by rfl) (by with_unfolding_all rfl)

theorem duplicateBuffHit_iff (buff_target : String) (new_start_frame : ℤ)
    (b : BuffEvent) :
    duplicateBuffHit buff_target new_start_frame b = true ↔
      b.buff_target = buff_target ∧ b.active = true ∧
        new_start_frame < b.end_frame := by
  simp [duplicateBuffHit, and_assoc]

/-- C4 counterexample: a pending interval (start transition not yet
committed) with the same scope `"セイア"` and `end_frame = 500 > 300` is
left completely untruncated by creating a new interval starting at 300 —
the function reports no duplicate and the interval keeps `end_frame`
500, contradicting truncation of "pending-or-active" intervals. -/
theorem pending_buff_not_truncated :
    checkAndUpdateDuplicateBuffs [pendingBuffW] "セイア" 300 =
        ([pendingBuffW], false) ∧
      pendingBuffW.active = false ∧ pendingBuffW.buff_target = "セイア" ∧
      (300 : ℤ) < pendingBuffW.end_frame := by
  refine ⟨by with_unfolding_all rfl, rfl, rfl, by decide⟩

/-- C4 (amended): creating a new interval truncates exactly the
already-active same-scope intervals whose `end_frame` exceeds the new
start frame (setting `end_frame` to the new start and recomputing the
millisecond duration) and leaves every other interval — in particular
every pending one — unchanged; and the scheduler never proposes a start
transition for an interval whose start transition has already committed
(it only proposes starts of inactive intervals whose `start_frame` is at
or after the current frame), so a truncated active interval is never
reopened. -/
theorem duplicate_buff_override_active_only (additional_events : List BuffEvent)
    (buff_target : String) (new_start_frame : ℤ) (hb : buff_target ≠ "") :
    (checkAndUpdateDuplicateBuffs additional_events buff_target new_start_frame).1 =
      additional_events.map (fun b =>
        if b.buff_target = buff_target ∧ b.active = true ∧
            new_start_frame < b.end_frame then
          { b with
            end_frame := new_start_frame,
            duration := (((new_start_frame - b.start_frame : ℤ) : ℚ) / 30) * 1000 }
        else b) ∧
    (∀ (events : List BuffEvent) (cf : ℤ) (ft : FoundTrans),
      findMostRecentAdditionalEvent events cf = some ft →
      ft.kind = TransKind.start →
      ft.event.active = false ∧ cf ≤ ft.event.start_frame) := by
  constructor
  · unfold checkAndUpdateDuplicateBuffs
    rw [if_neg hb]
    show List.map _ _ = _
    refine List.map_congr_left ?_
    intro b _
    by_cases hcond : b.buff_target = buff_target ∧ b.active = true ∧
        new_start_frame < b.end_frame
    · rw [if_pos ((duplicateBuffHit_iff ..).mpr hcond), if_pos hcond]
      rfl
    · rw [if_neg (fun hc => hcond ((duplicateBuffHit_iff ..).mp hc)),
        if_neg hcond]
  · intro events cf ft hfind hkind
    exact (findMostRecentAdditionalEvent_sound hfind).2.2 hkind

theorem duplicate_buff_override_active_only_witness :
    (checkAndUpdateDuplicateBuffs [activeBuffW] "セイア" 300).1 =
      [activeBuffW].map (fun b =>
        if b.buff_target = "セイア" ∧ b.active = true ∧ (300 : ℤ) < b.end_frame then
          { b with
            end_frame := (300 : ℤ),
            duration := ((((300 : ℤ) - b.start_frame : ℤ) : ℚ) / 30) * 1000 }
        else b) ∧
    (∀ (events : List BuffEvent) (cf : ℤ) (ft : FoundTrans),
      findMostRecentAdditionalEvent events cf = some ft →
      ft.kind = TransKind.start →
      ft.event.active = false ∧ cf ≤ ft.event.start_frame) :=
  duplicate_buff_override_active_only [activeBuffW] "セイア" 300 (by decide)

/-- C7: the merge loop of `resolveRowTiming` is bounded: with its fuel
exhausted it aborts with the unresolvable-timing-loop message naming the
row's 1-based position; a loop error surfaces from `resolveRowTiming`
wrapped in the per-row error message (still naming the position); and a
successful `resolveRowTiming` commits at most 101 events (100 loop
iterations plus the row itself). -/
theorem scheduler_loop_bounded :
    (∀ (p : Proc) (row : Row) (index : ℕ),
      resolveLoopAux p row index 0 = .error (loopMsg index)) ∧
    (∀ (p : Proc) (row : Row) (index : ℕ) (e : String),
      resolveLoopAux p row index 100 = .error e →
      resolveRowTiming p row index = .error (rowErrorMsg index e)) ∧
    (∀ (p : Proc) (row : Row) (index : ℕ) (r : Proc × Row),
      resolveRowTiming p row index = .ok r →
      r.1.timeline.length ≤ p.timeline.length + 101) := by
  refine ⟨fun p row index => rfl, ?_, ?_⟩
  · intro p row index e h
    unfold resolveRowTiming
    rw [h]
  · intro p row index r h
    unfold resolveRowTiming at h
    split at h
    · exact Except.noConfusion h
    · rename_i r0 heq
      injection h with h
      subst h
      split at heq
      · exact Except.noConfusion heq
      · rename_i p1 row1 fe hloop
        have h1 : p1.timeline.length ≤ p.timeline.length + 100 :=
          resolveLoopAux_length 100 p row (p1, row1, fe) hloop
        have h2 := commitRow_length heq
        omega

theorem scheduler_loop_bounded_witness :
    resolveLoopAux procW emptyRow 0 0 = .error (loopMsg 0) ∧
    resolveRowTiming procW emptyRow 5 = .error (rowErrorMsg 5 noAnchorMsg) ∧
    procWrow.timeline.length ≤ procW.timeline.length + 101 :=
  ⟨scheduler_loop_bounded.1 procW emptyRow 0,
   scheduler_loop_bounded.2.1 procW emptyRow 5 noAnchorMsg (by with_unfolding_all rfl),
   scheduler_loop_bounded.2.2 procW rowW 0 (procWrow, rowW1) (by with_unfolding_all rfl)⟩

/-- C3: in every committed log produced by a successful conversion run the
frames are pairwise non-decreasing (for all `i < j`,
`frame i ≤ frame j`); and whenever a row's final estimated frame lies
strictly before the current frame, the commit step clamps the row to the
current frame and attaches the "reordered" annotation to the committed
event (and to the row) instead of failing. -/
theorem committed_log_monotone :
    (∀ (input : List Row) (settings : Settings) (bd : Option Catalog)
        (tj : TimelineJSON),
      runTimelineProcessor input settings bd = .ok tj →
      List.Pairwise (· ≤ ·) (tj.timeline.map (fun e => e.frame))) ∧
    (∀ (p : Proc) (row : Row) (fe : ℤ) (r : Proc × Row),
      fe < p.state.current_frame → commitRow p row fe = .ok r →
      ∃ ev, r.1.timeline = p.timeline ++ [ev] ∧
        ev.frame = p.state.current_frame ∧ reorderedMsg ∈ ev.note ∧
        r.2.frame = some p.state.current_frame) := by
  constructor
  · intro input settings bd tj h
    unfold runTimelineProcessor at h
    split at h
    · exact Except.noConfusion h
    · rename_i p0 hinit
      unfold createTimelineJSON at h
      split at h
      · exact Except.noConfusion h
      · rename_i pf hloop
        injection h with h
        subst h
        exact (createTimelineLoop_inv input p0 0 pf
          (initTimelineProcessor_inv hinit) hloop).1
  · intro p row fe r hlt h
    exact commitRow_clamped hlt h

theorem committed_log_monotone_witness :
    List.Pairwise (· ≤ ·) (tjEmpty.timeline.map (fun e => e.frame)) ∧
    ∃ ev, procC2clamped.timeline = procC2.timeline ++ [ev] ∧
      ev.frame = procC2.state.current_frame ∧ reorderedMsg ∈ ev.note ∧
      rowReordered.frame = some procC2.state.current_frame :=
  ⟨committed_log_monotone.1 [] settingsW none tjEmpty (by with_unfolding_all rfl),
   committed_log_monotone.2 procC2 emptyRow 100 (procC2clamped, rowReordered)
     (by decide) (by with_unfolding_all rfl)⟩

/-- C10: every conversion run (with a non-negative effective resource
ceiling) commits the two synthetic default events before any user row:
タイム計測開始 at frame 0 with 0 participants and 戦闘開始 at frame 60
with 6 participants; the accrual rate recorded on the first commit is 0
and no points have accrued by the end of the constructor; and in general
a commit whose target frame does not exceed the current frame accrues
nothing — the accumulator changes only by the cost payment. -/
theorem default_events_and_no_early_accrual :
    (∀ (input : List Row) (settings : Settings) (bd : Option Catalog),
      0 ≤ jsOrQ settings.max_cost DEFAULT_MAX_COST →
      ∃ p, initTimelineProcessor input settings bd = .ok p ∧
        p.timeline.map (fun e => (e.frame, e.event_name, e.remaining_students)) =
          [(0, "タイム計測開始", 0), (60, "戦闘開始", 6)] ∧
        (p.timeline.map (fun e => e.total_cost_recovery)).head? = some 0 ∧
        p.state.current_frame = 60 ∧
        p.state.remaining_cost_points = 0) ∧
    (∀ (p : Proc) (c : Commit) (p2 : Proc),
      commitTarget c ≤ p.state.current_frame →
      addEventToTimeline p c = .ok p2 →
      p2.state.remaining_cost_points =
        p.state.remaining_cost_points -
          (if commitIsRow c = true then commitCostUsed c * COST_POINT_UNIT else 0)) := by
  constructor
  · intro input settings bd hmc
    obtain ⟨r1, hr1⟩ := calculateTotalCostRecovery_nil_ok
      (commitTarget battleStartCommit) settings.ss_enabled 6
    have h1 : addEventToTimeline (initProc0 input settings bd) timeStartCommit =
        .ok (addEventCore (initProc0 input settings bd) timeStartCommit 0) :=
      addEventToTimeline_ok_intro (calculateTotalCostRecovery_nil_zero _ _)
    have h2 : addEventToTimeline
        (addEventCore (initProc0 input settings bd) timeStartCommit 0)
        battleStartCommit =
        .ok (addEventCore
          (addEventCore (initProc0 input settings bd) timeStartCommit 0)
          battleStartCommit r1) :=
      addEventToTimeline_ok_intro hr1
    refine ⟨addCherinoSS (addKanoeSS (addEventCore
      (addEventCore (initProc0 input settings bd) timeStartCommit 0)
      battleStartCommit r1)), ?_, ?_, ?_, ?_, ?_⟩
    · simp only [initTimelineProcessor, h1, h2]
    · rw [addCherinoSS_timeline, addKanoeSS_timeline]
      rfl
    · rw [addCherinoSS_timeline, addKanoeSS_timeline]
      rfl
    · rw [addCherinoSS_state, addKanoeSS_state]
      rfl
    · rw [addCherinoSS_state, addKanoeSS_state]
      show committedPoints
        (addEventCore (initProc0 input settings bd) timeStartCommit 0)
        battleStartCommit = 0
      have hlt : (addEventCore (initProc0 input settings bd) timeStartCommit 0).state.current_frame <
          commitTarget battleStartCommit := by
        show (0 : ℤ) < 60
        norm_num
      rw [committedPoints_eq, accrueAndClamp_of_lt hlt]
      have hcost : (if commitIsRow battleStartCommit = true then
          commitCostUsed battleStartCommit * COST_POINT_UNIT else 0) = 0 := by
        show (0 : ℚ) * COST_POINT_UNIT = 0
        exact zero_mul _
      rw [hcost, sub_zero]
      have hunc : unclampedPoints
          (addEventCore (initProc0 input settings bd) timeStartCommit 0)
          (commitTarget battleStartCommit) = 0 := by
        unfold unclampedPoints
        have e1 : (addEventCore (initProc0 input settings bd) timeStartCommit 0).state.remaining_cost_points = 0 := by
          with_unfolding_all rfl
        have e2 : (addEventCore (initProc0 input settings bd) timeStartCommit 0).state.total_cost_recovery = 0 := rfl
        have e3 : (addEventCore (initProc0 input settings bd) timeStartCommit 0).state.current_frame = 0 := rfl
        rw [e1, e2, e3]
        norm_num
      rw [hunc]
      have hmax : (addEventCore (initProc0 input settings bd) timeStartCommit 0).max_cost_points =
          jsOrQ settings.max_cost DEFAULT_MAX_COST * COST_POINT_UNIT := rfl
      rw [hmax]
      exact min_eq_left (mul_nonneg hmc (by norm_num [COST_POINT_UNIT]))
  · intro p c p2 hle h
    obtain ⟨recov, _, hp2⟩ := addEventToTimeline_ok_elim h
    subst hp2
    show committedPoints p c = _
    rw [committedPoints_eq, accrueAndClamp_of_ge hle]

theorem default_events_and_no_early_accrual_witness :
    (∃ p, initTimelineProcessor [] settingsW none = .ok p ∧
      p.timeline.map (fun e => (e.frame, e.event_name, e.remaining_students)) =
        [(0, "タイム計測開始", 0), (60, "戦闘開始", 6)] ∧
      (p.timeline.map (fun e => e.total_cost_recovery)).head? = some 0 ∧
      p.state.current_frame = 60 ∧
      p.state.remaining_cost_points = 0) ∧
    (addEventCore procC2 commitLate 4200).state.remaining_cost_points =
      procC2.state.remaining_cost_points -
        (if commitIsRow commitLate = true then
          commitCostUsed commitLate * COST_POINT_UNIT else 0) :=
  ⟨default_events_and_no_early_accrual.1 [] settingsW none
      (by with_unfolding_all decide),
   default_events_and_no_early_accrual.2 procC2 commitLate
      (addEventCore procC2 commitLate 4200) (by decide)
      (addEventToTimeline_ok_intro (by with_unfolding_all rfl))⟩
